import Mathlib

/-!
Shallow embedding of `src/main.py` (BinanceAlphaBot).

Python values read from the fetched JSON records are modelled by `PyVal`
(strings, ints, bools and `None`); a raw catalog record is a dict read at
six fixed keys, modelled by `RawToken` with one `Option PyVal` field per
key (`Option.none` = key absent).  `str(...)` and truthiness are `pyStr`
and `pyTruthy`.  Fallible Python code is modelled in `Except PyErr`:
`.error` is an exception escaping the modelled scope.  External effects
are oracles passed as arguments: the HTTP outcome is a `FetchOutcome`,
the persisted chat-id file an `Option (List Int)` (`Option.none` = file
does not exist), and per-recipient Telegram send failures a predicate
`Int → Bool`.

PyVal equality is structural; Python's cross-type numeric equalities
(1 == True) are not modelled, as no diffed value in any claim mixes types.
-/

inductive PyVal where
  | str (s : String)
  | int (n : Int)
  | bool (b : Bool)
  | pynone
deriving DecidableEq, Repr

/-- Python `str(v)` for the modelled values. -/
def pyStr : PyVal → String
  | .str s => s
  | .int n => toString n
  | .bool b => if b then "True" else "False"
  | .pynone => "None"

/-- Python truthiness `bool(v)` for the modelled values. -/
def pyTruthy : PyVal → Bool
  | .str s => decide (s ≠ "")
  | .int n => decide (n ≠ 0)
  | .bool b => b
  | .pynone => false

inductive PyErr where
  | keyError (k : String)
  | netError
  | jsonError
deriving DecidableEq, Repr


instance {e a : Type} [DecidableEq e] [DecidableEq a] : DecidableEq (Except e a) :=
  fun x y =>
  match x, y with
  | .ok v, .ok w =>
    if h : v = w then isTrue (by rw [h]) else isFalse fun hc => h (Except.ok.inj hc)
  | .error v, .error w =>
    if h : v = w then isTrue (by rw [h]) else isFalse fun hc => h (Except.error.inj hc)
  | .ok _, .error _ => isFalse fun hc => Except.noConfusion hc
  | .error _, .ok _ => isFalse fun hc => Except.noConfusion hc

/-- One raw record of the fetched catalog: the dict keys the program reads.
A field is `Option.none` when the key is absent from the dict. -/
structure RawToken where
  tokenId : Option PyVal := Option.none
  name : Option PyVal := Option.none
  symbol : Option PyVal := Option.none
  price : Option PyVal := Option.none
  onlineTge : Option PyVal := Option.none
  onlineAirdrop : Option PyVal := Option.none
deriving DecidableEq, Repr

/-- Outcome of the one HTTP GET in `fetch_list` (`src/main.py:20-25`):
`requests.get` raising, `resp.json()` raising, or a parsed JSON envelope
whose `success` and `data` keys may each be absent. -/
inductive FetchOutcome where
  | netError
  | badJson
  | envelope (success : Option PyVal) (data : Option (List RawToken))

/-- `fetch_list` (`src/main.py:20-25`): `requests.get` and `resp.json()`
exceptions propagate; `data.get("success")` truthy returns `data["data"]`
(KeyError when the key is absent); otherwise returns `None`. -/
def fetch_list : FetchOutcome → Except PyErr (Option (List RawToken))
  | .netError => .error .netError
  | .badJson => .error .jsonError
  | .envelope success data =>
    if pyTruthy (success.getD .pynone) then
      match data with
      | some d => .ok (some d)
      | Option.none => .error (.keyError "data")
    else .ok Option.none

/-- The `TokenInfo` TypedDict (`src/main.py:28-34`). -/
structure TokenInfo where
  tokenId : String
  name : String
  symbol : String
  price : String
  onlineTge : Bool
  onlineAirdrop : Bool
deriving DecidableEq, Repr

/-- `_to_token_info` (`src/main.py:37-45`): defensive coercion of one raw
record, `str(raw.get(k, ""))` for the string fields and
`bool(raw.get(k, False))` for the flags. -/
def _to_token_info (raw : RawToken) : TokenInfo where
  tokenId := pyStr (raw.tokenId.getD (.str ""))
  name := pyStr (raw.name.getD (.str ""))
  symbol := pyStr (raw.symbol.getD (.str ""))
  price := pyStr (raw.price.getD (.str ""))
  onlineTge := pyTruthy (raw.onlineTge.getD (.bool false))
  onlineAirdrop := pyTruthy (raw.onlineAirdrop.getD (.bool false))

/-- `load_all_chat_ids` (`src/main.py:50-54`): `[]` when the file does not
exist, else the stored list. -/
def load_all_chat_ids (file : Option (List Int)) : List Int :=
  match file with
  | Option.none => []
  | some ids => ids

/-- `save_chat_id` (`src/main.py:57-62`): append and rewrite the file only
when the id is not already present. -/
def save_chat_id (chat_id : Int) (file : Option (List Int)) : Option (List Int) :=
  let chat_ids := load_all_chat_ids file
  if chat_id ∉ chat_ids then some (chat_ids ++ [chat_id]) else file

/-- The set comprehension of `compareLists` (`src/main.py:73-74`):
the set of raw values `t["tokenId"]`, KeyError on the first record whose
dict lacks the key. -/
def rawIdSet : List RawToken → Except PyErr (Finset PyVal)
  | [] => .ok ∅
  | t :: ts =>
    match t.tokenId with
    | some v => do
      let s ← rawIdSet ts
      pure (insert v s)
    | Option.none => .error (.keyError "tokenId")

/-- `MonitorClass.compareLists` (`src/main.py:72-75`): Python set
inequality of the two id sets. -/
def compareLists (token_list tokens : List RawToken) : Except PyErr Bool := do
  let old_ids ← rawIdSet token_list
  let new_ids ← rawIdSet tokens
  pure (decide (old_ids ≠ new_ids))

/-- The old-id set of `findNewToken` (`src/main.py:80`):
`str(t.get("tokenId"))` over the previous records that have the key
(membership is all that is used of the Python set). -/
def oldStrIds (token_list : List RawToken) : List String :=
  (token_list.filterMap RawToken.tokenId).map pyStr

/-- `str(t.get("tokenId", ""))` (`src/main.py:83`). -/
def newTid (t : RawToken) : String :=
  pyStr (t.tokenId.getD (.str ""))

/-- `MonitorClass.findNewToken` (`src/main.py:77-86`): `[]` when
`self.token_list` is `None` or empty (`if not self.token_list`); else the
current records whose coerced id is non-empty and absent from the old id
set, in order, each mapped through `_to_token_info`. -/
def findNewToken (token_list : Option (List RawToken)) (tokens : List RawToken) :
    List TokenInfo :=
  match token_list with
  | Option.none => []
  | some prev =>
    if prev.isEmpty then []
    else
      (tokens.filter fun t => decide (newTid t ≠ "" ∧ newTid t ∉ oldStrIds prev)).map
        _to_token_info

/-- The dict literal `_to_token_info` returns: exactly six keys. -/
def tokenInfoDict (ti : TokenInfo) : List (String × PyVal) :=
  [("tokenId", .str ti.tokenId), ("name", .str ti.name), ("symbol", .str ti.symbol),
    ("price", .str ti.price), ("onlineTge", .bool ti.onlineTge),
    ("onlineAirdrop", .bool ti.onlineAirdrop)]

/-- Python dict subscription `d[k]`: KeyError when the key is absent. -/
def dictGet (d : List (String × PyVal)) (k : String) : Except PyErr PyVal :=
  match d.find? fun kv => kv.1 == k with
  | some kv => .ok kv.2
  | Option.none => .error (.keyError k)

/-- The f-string of `announce_bot` (`src/main.py:91-101`): each
interpolated `tokenInfo[...]` subscription in source order, then the
assembled text. -/
def announce_message (d : List (String × PyVal)) : Except PyErr String := do
  let nm ← dictGet d "name"
  let sym ← dictGet d "symbol"
  let tid ← dictGet d "tokenId"
  let addr ← dictGet d "contractAddress"
  let prc ← dictGet d "price"
  let ltime ← dictGet d "listingTime"
  let tge ← dictGet d "onlineTge"
  let adrop ← dictGet d "onlineAirdrop"
  pure ("🚀 *New Token Listed on Binance Alpha!*\n\n**Name:** " ++ pyStr nm ++ " (" ++
    pyStr sym ++ ")\n**Token ID:** `" ++ pyStr tid ++ "`\n**Contract Address:** `" ++
    pyStr addr ++ "`\n**Price:** " ++ pyStr prc ++ "\n**Listing Time:** " ++ pyStr ltime ++
    "\n**TGE Live:** " ++ (if pyTruthy tge then "✅ Yes" else "❌ No") ++
    "\n**Airdrop Active:** " ++ (if pyTruthy adrop then "🎁 Yes" else "—") ++
    "\n\nStay tuned for more updates!")

/-- The send loop of `announce_bot` (`src/main.py:103-107`): one attempt
per chat id in order; a failing send is caught inside the loop, recorded
here as `false`. -/
def send_loop (chat_ids : List Int) (sendFails : Int → Bool) : List (Int × Bool) :=
  chat_ids.map fun chat_id => (chat_id, !sendFails chat_id)

/-- Successful deliveries of one send loop. -/
def report_success (outcomes : List (Int × Bool)) : Nat :=
  (outcomes.filter fun o => o.2).length

/-- Failed deliveries of one send loop. -/
def report_failure (outcomes : List (Int × Bool)) : Nat :=
  (outcomes.filter fun o => !o.2).length

/-- `MonitorClass.announce_bot` (`src/main.py:88-107`): load the chat ids,
build the message (any exception there propagates, before any send), then
run the send loop.  Returns the message and the per-chat outcomes. -/
def announce_bot (file : Option (List Int)) (sendFails : Int → Bool)
    (tokenInfo : TokenInfo) : Except PyErr (String × List (Int × Bool)) := do
  let chat_ids := load_all_chat_ids file
  let message ← announce_message (tokenInfoDict tokenInfo)
  pure (message, send_loop chat_ids sendFails)

/-- The `for tokenInfo in newTokens` loop of `start_listen`
(`src/main.py:123-124`): sequential announcements, the first exception
propagating. -/
def announce_all (file : Option (List Int)) (sendFails : Int → Bool) :
    List TokenInfo → Except PyErr (List (String × List (Int × Bool)))
  | [] => .ok []
  | ti :: rest => do
    let r ← announce_bot file sendFails ti
    let rs ← announce_all file sendFails rest
    pure (r :: rs)

/-- Observable outcome of one iteration of `start_listen`'s `while True`
(`src/main.py:109-132`): the `token_list` after the iteration, the
announcements made, whether `asyncio.sleep(WAIT_TIME)` ran, and the
exception the `except` caught, if any. -/
structure CycleResult where
  token_list : Option (List RawToken)
  announced : List (String × List (Int × Bool))
  slept : Bool
  caught : Option PyErr
deriving DecidableEq, Repr

/-- The `else` branch of a watching cycle (`src/main.py:119-127`):
compare, announce each new token when different, and end with
`self.token_list = tokens`. -/
def watch_step (prev tokens : List RawToken) (file : Option (List Int))
    (sendFails : Int → Bool) :
    Except PyErr (Option (List RawToken) × List (String × List (Int × Bool))) := do
  let isDifferent ← compareLists prev tokens
  if isDifferent then do
    let newTokens := findNewToken (some prev) tokens
    let announced ← announce_all file sendFails newTokens
    pure (some tokens, announced)
  else
    pure (some tokens, [])

/-- The body of the `try` in `start_listen` (`src/main.py:111-129`) up to
the sleep: fetch; on `None` leave the state; on a first fetch seed it;
else run the watching step. -/
def cycle_body (token_list : Option (List RawToken)) (f : FetchOutcome)
    (file : Option (List Int)) (sendFails : Int → Bool) :
    Except PyErr (Option (List RawToken) × List (String × List (Int × Bool))) := do
  let tokens? ← fetch_list f
  match tokens? with
  | Option.none => pure (token_list, [])
  | some tokens =>
    match token_list with
    | Option.none => pure (some tokens, [])
    | some prev => watch_step prev tokens file sendFails

/-- One iteration of `start_listen` with its `try`/`except`
(`src/main.py:110-132`).  In the `except` branch the state is the
pre-iteration one: every raise in the body happens before the
`self.token_list = tokens` assignment and before any send (the message is
built before the send loop), and the sleep inside the `try` is skipped. -/
def start_listen_cycle (token_list : Option (List RawToken)) (f : FetchOutcome)
    (file : Option (List Int)) (sendFails : Int → Bool) : CycleResult :=
  match cycle_body token_list f file sendFails with
  | .ok (st, announced) =>
    { token_list := st, announced := announced, slept := true, caught := Option.none }
  | .error e =>
    { token_list := token_list, announced := [], slept := false, caught := some e }

/-- Record with an id present: `t["tokenId"]` cannot raise. -/
def hasId (t : RawToken) : Bool := t.tokenId.isSome

/-- Record whose id is a non-empty string (a canonical entry's id). -/
def hasNonemptyStrId (t : RawToken) : Bool :=
  match t.tokenId with
  | some (.str s) => decide (s ≠ "")
  | _ => false

/-- The id set of a snapshot whose records all carry the key. -/
def rawIdFinset (ts : List RawToken) : Finset PyVal :=
  (ts.filterMap RawToken.tokenId).toFinset

def rawA : RawToken := { tokenId := some (.str "A") }

def rawB : RawToken := { tokenId := some (.str "B"), name := some (.str "TokenB") }

def rawEmptyId : RawToken := { tokenId := some (.str "") }

def rawNoId : RawToken := {}

theorem to_token_info_tokenId (t : RawToken) : (_to_token_info t).tokenId = newTid t := rfl

theorem rawIdSet_of_hasId (ts : List RawToken) (h : ∀ t ∈ ts, hasId t = true) :
    rawIdSet ts = .ok (rawIdFinset ts) := by
  induction ts with
  | nil => simp [rawIdSet, rawIdFinset]
  | cons t ts ih =>
    have ht : t.tokenId.isSome = true := h t (List.mem_cons_self t ts)
    obtain ⟨v, hv⟩ := Option.isSome_iff_exists.mp ht
    have ih2 := ih fun u hu => h u (List.mem_cons_of_mem t hu)
    simp [rawIdSet, hv, ih2, rawIdFinset, List.filterMap_cons, bind, Except.bind, pure,
      Except.pure]

theorem mem_oldStrIds_of_mem (A : List RawToken) (u : RawToken) (v : PyVal)
    (hu : u ∈ A) (hv : u.tokenId = some v) : pyStr v ∈ oldStrIds A := by
  unfold oldStrIds
  exact List.mem_map_of_mem pyStr (List.mem_filterMap.mpr ⟨u, hu, hv⟩)

theorem findNewToken_some (prev tokens : List RawToken) :
    findNewToken (some prev) tokens
      = if prev.isEmpty then []
        else
          (tokens.filter fun t => decide (newTid t ≠ "" ∧ newTid t ∉ oldStrIds prev)).map
            _to_token_info := rfl

/-- C1: rendering the announcement for any normalized entry raises: the dict
`_to_token_info` builds has no `contractAddress` key, and the template
subscripts it. -/
theorem c1_render_always_raises (raw : RawToken) :
    announce_message (tokenInfoDict (_to_token_info raw)) =
      .error (.keyError "contractAddress") := rfl

/-- C3: `compareLists` returns true iff the two id finsets differ; a
removal-only change reports true with no new entries. -/
theorem c3_changed_iff_idset (A B : List RawToken)
    (hA : ∀ t ∈ A, hasId t = true) (hB : ∀ t ∈ B, hasId t = true) :
    (compareLists A B = .ok true ↔ rawIdFinset A ≠ rawIdFinset B)
    ∧ (A ≠ [] → rawIdFinset B ⊆ rawIdFinset A → rawIdFinset A ≠ rawIdFinset B →
        compareLists A B = .ok true ∧ findNewToken (some A) B = []) := by
  have hcmp : compareLists A B = .ok (decide (rawIdFinset A ≠ rawIdFinset B)) := by
    simp [compareLists, rawIdSet_of_hasId A hA, rawIdSet_of_hasId B hB, bind, Except.bind,
      pure, Except.pure]
  constructor
  · rw [hcmp]
    constructor
    · intro h
      have : decide (rawIdFinset A ≠ rawIdFinset B) = true := by
        exact (Except.ok.injEq _ _).mp h
      exact of_decide_eq_true this
    · intro h
      rw [decide_eq_true h]
  · intro hne hsub hdiff
    refine ⟨by rw [hcmp, decide_eq_true hdiff], ?_⟩
    rw [findNewToken_some, List.isEmpty_eq_false.mpr hne]
    simp only [if_false, Bool.false_eq_true]
    have hfil : (B.filter fun t => decide (newTid t ≠ "" ∧ newTid t ∉ oldStrIds A)) = [] := by
      apply List.filter_eq_nil_iff.mpr
      intro t htB
      obtain ⟨v, hv⟩ := Option.isSome_iff_exists.mp (hB t htB)
      have hvB : v ∈ rawIdFinset B :=
        List.mem_toFinset.mpr (List.mem_filterMap.mpr ⟨t, htB, hv⟩)
      have hvA : v ∈ rawIdFinset A := hsub hvB
      obtain ⟨u, huA, huv⟩ := List.mem_filterMap.mp (List.mem_toFinset.mp hvA)
      have hmem : pyStr v ∈ oldStrIds A := mem_oldStrIds_of_mem A u v huA huv
      have htid : newTid t = pyStr v := by simp [newTid, hv]
      simp [htid, hmem]
    rw [hfil]
    simp

/-- C4: with a non-empty previous snapshot and canonical current entries,
`findNewToken` is exactly the order-preserving filter of the current
snapshot on ids absent from the previous id set, with no deduplication,
and every produced entry's id is absent from the previous id set. -/
theorem c4_new_entries (A B : List RawToken) (hA : A ≠ [])
    (hB : ∀ t ∈ B, hasNonemptyStrId t = true) :
    findNewToken (some A) B
      = (B.filter fun t => decide (newTid t ∉ oldStrIds A)).map _to_token_info
    ∧ ∀ ti ∈ findNewToken (some A) B, ti.tokenId ∉ oldStrIds A := by
  have hne : ∀ t ∈ B, newTid t ≠ "" := by
    intro t htB
    have := hB t htB
    unfold hasNonemptyStrId at this
    unfold newTid
    cases hv : t.tokenId with
    | none => rw [hv] at this; exact absurd this (by simp)
    | some v =>
      rw [hv] at this
      cases v with
      | str s => simpa using of_decide_eq_true this
      | int n => exact absurd this (by simp)
      | bool b => exact absurd this (by simp)
      | pynone => exact absurd this (by simp)
  have heq : findNewToken (some A) B
      = (B.filter fun t => decide (newTid t ∉ oldStrIds A)).map _to_token_info := by
    rw [findNewToken_some, List.isEmpty_eq_false.mpr hA]
    simp only [if_false, Bool.false_eq_true]
    congr 1
    apply List.filter_congr
    intro t htB
    simp [hne t htB]
  refine ⟨heq, ?_⟩
  rw [heq]
  intro ti hti
  obtain ⟨u, hu, hmap⟩ := List.mem_map.mp hti
  have hfil := List.mem_filter.mp hu
  have : newTid u ∉ oldStrIds A := of_decide_eq_true hfil.2
  rw [← hmap, to_token_info_tokenId]
  exact this

theorem cycle_body_ok_state (st st2 : Option (List RawToken)) (f : FetchOutcome)
    (file : Option (List Int)) (sf : Int → Bool) (tokens : List RawToken)
    (ann : List (String × List (Int × Bool)))
    (hf : fetch_list f = .ok (some tokens))
    (h : cycle_body st f file sf = .ok (st2, ann)) : st2 = some tokens := by
  unfold cycle_body at h
  rw [hf] at h
  simp only [bind, Except.bind] at h
  cases st with
  | none =>
    simp only [pure, Except.pure, Except.ok.injEq, Prod.mk.injEq] at h
    exact h.1.symm
  | some prev =>
    unfold watch_step at h
    simp only [bind, Except.bind] at h
    cases hcl : compareLists prev tokens with
    | error e =>
      rw [hcl] at h
      simp at h
    | ok b =>
      rw [hcl] at h
      cases b with
      | false =>
        simp only [Bool.false_eq_true, if_false, pure, Except.pure, Except.ok.injEq,
          Prod.mk.injEq] at h
        exact h.1.symm
      | true =>
        simp only [if_true] at h
        cases hann : announce_all file sf (findNewToken (some prev) tokens) with
        | error e =>
          rw [hann] at h
          simp at h
        | ok lst =>
          rw [hann] at h
          simp only [pure, Except.pure, Except.ok.injEq, Prod.mk.injEq] at h
          exact h.1.symm

/-- C2 (amended): when the fetch succeeded, the cycle ends with the stored
snapshot equal to the fetched one exactly when no exception was caught;
when one was caught, the stored snapshot is the pre-cycle one. -/
theorem c2_snapshot_update (st : Option (List RawToken)) (f : FetchOutcome)
    (file : Option (List Int)) (sf : Int → Bool) (tokens : List RawToken)
    (h : fetch_list f = .ok (some tokens)) :
    (start_listen_cycle st f file sf).token_list
      = if (start_listen_cycle st f file sf).caught = Option.none then some tokens
        else st := by
  cases hcb : cycle_body st f file sf with
  | ok p =>
    obtain ⟨st2, ann⟩ := p
    have hst : st2 = some tokens := cycle_body_ok_state st st2 f file sf tokens ann h hcb
    unfold start_listen_cycle
    rw [hcb, hst]
    simp
  | error e =>
    unfold start_listen_cycle
    rw [hcb]
    simp

theorem c2_counterexample :
    fetch_list (.envelope (some (.bool true)) (some [rawA, rawB])) = .ok (some [rawA, rawB])
    ∧ (start_listen_cycle (some [rawA]) (.envelope (some (.bool true)) (some [rawA, rawB]))
        Option.none fun _ => false).token_list = some [rawA]
    ∧ ([rawA] : List RawToken) ≠ [rawA, rawB] :=
  ⟨by decide, by decide, by decide⟩

theorem c2_witness :
    (start_listen_cycle Option.none (.envelope (some (.bool true)) (some [rawA])) Option.none
        fun _ => false).token_list
      = if (start_listen_cycle Option.none (.envelope (some (.bool true)) (some [rawA]))
            Option.none fun _ => false).caught = Option.none
        then some [rawA] else Option.none :=
  c2_snapshot_update Option.none _ Option.none (fun _ => false) [rawA] rfl

theorem c3_witness : compareLists [rawA] [rawB] = .ok true :=
  ((c3_changed_iff_idset [rawA] [rawB] (by decide) (by decide)).1).mpr (by decide)

theorem c4_witness :
    findNewToken (some [rawA]) [rawA, rawB]
      = ([rawA, rawB].filter fun t => decide (newTid t ∉ oldStrIds [rawA])).map _to_token_info
    ∧ ∀ ti ∈ findNewToken (some [rawA]) [rawA, rawB], ti.tokenId ∉ oldStrIds [rawA] :=
  c4_new_entries [rawA] [rawA, rawB] (by decide) (by decide)

/-- C5: a first fetch (no prior snapshot) seeds the state and announces
nothing; an unset or empty previous snapshot yields no new entries. -/
theorem c5_seeding (f : FetchOutcome) (tokens : List RawToken) (file : Option (List Int))
    (sf : Int → Bool) (h : fetch_list f = .ok (some tokens)) :
    start_listen_cycle Option.none f file sf
        = { token_list := some tokens, announced := [], slept := true, caught := Option.none }
    ∧ findNewToken Option.none tokens = []
    ∧ findNewToken (some []) tokens = [] := by
  refine ⟨?_, rfl, rfl⟩
  unfold start_listen_cycle cycle_body
  rw [h]
  simp [bind, Except.bind, pure, Except.pure]

theorem c5_witness :
    start_listen_cycle Option.none (.envelope (some (.bool true)) (some [rawA])) Option.none
        (fun _ => false)
      = { token_list := some [rawA], announced := [], slept := true, caught := Option.none }
    ∧ findNewToken Option.none [rawA] = []
    ∧ findNewToken (some []) [rawA] = [] :=
  c5_seeding _ [rawA] Option.none (fun _ => false) rfl

/-- C6 (amended): a parsed envelope with falsy or absent success yields
`None`; success with data yields the data; network failure, malformed
JSON, or success without a data key raise past `fetch_list`, caught only
by the loop, which leaves its state unchanged. -/
theorem c6_fetch_behavior (success : Option PyVal) (d : List RawToken)
    (st : Option (List RawToken)) (file : Option (List Int)) (sf : Int → Bool)
    (hs : pyTruthy (success.getD .pynone) = false) :
    fetch_list (.envelope success (some d)) = .ok Option.none
    ∧ fetch_list (.envelope success Option.none) = .ok Option.none
    ∧ fetch_list (.envelope (some (.bool true)) (some d)) = .ok (some d)
    ∧ fetch_list .netError = .error .netError
    ∧ fetch_list .badJson = .error .jsonError
    ∧ fetch_list (.envelope (some (.bool true)) Option.none) = .error (.keyError "data")
    ∧ (start_listen_cycle st .netError file sf).token_list = st
    ∧ (start_listen_cycle st .netError file sf).caught = some PyErr.netError := by
  refine ⟨by simp [fetch_list, hs], by simp [fetch_list, hs], rfl, rfl, rfl, rfl, rfl, rfl⟩

theorem c6_counterexample :
    fetch_list .netError = .error .netError ∧ fetch_list .badJson = .error .jsonError :=
  ⟨rfl, rfl⟩

theorem c6_witness :
    fetch_list (.envelope Option.none (some [])) = .ok Option.none :=
  (c6_fetch_behavior Option.none [] Option.none Option.none (fun _ => false) rfl).1

/-- C7 (amended): an exception raised in the body of a cycle is caught at
the loop boundary, the cycle is skipped with the state unchanged, and the
loop continues; the interval sleep runs exactly in the cycles that caught
no exception. -/
theorem c7_catch_and_sleep (st : Option (List RawToken)) (f : FetchOutcome)
    (file : Option (List Int)) (sf : Int → Bool) (e : PyErr)
    (h : cycle_body st f file sf = .error e) :
    start_listen_cycle st f file sf
        = { token_list := st, announced := [], slept := false, caught := some e }
    ∧ ∀ (st2 : Option (List RawToken)) (f2 : FetchOutcome) (file2 : Option (List Int))
        (sf2 : Int → Bool),
        ((start_listen_cycle st2 f2 file2 sf2).slept = true
          ↔ (start_listen_cycle st2 f2 file2 sf2).caught = Option.none) := by
  constructor
  · unfold start_listen_cycle
    rw [h]
  · intro st2 f2 file2 sf2
    unfold start_listen_cycle
    cases cycle_body st2 f2 file2 sf2 with
    | error e2 => simp
    | ok p =>
      obtain ⟨a, b⟩ := p
      simp

theorem c7_counterexample :
    (start_listen_cycle (some [rawA]) (.envelope (some (.bool true)) (some [rawA, rawB]))
        Option.none fun _ => false).caught = some (.keyError "contractAddress")
    ∧ (start_listen_cycle (some [rawA]) (.envelope (some (.bool true)) (some [rawA, rawB]))
        Option.none fun _ => false).slept = false :=
  ⟨by decide, by decide⟩

theorem c7_witness :
    start_listen_cycle (some [rawA]) (.envelope (some (.bool true)) (some [rawA, rawB]))
        Option.none (fun _ => false)
      = { token_list := some [rawA], announced := [], slept := false,
          caught := some (.keyError "contractAddress") } :=
  (c7_catch_and_sleep (some [rawA]) _ Option.none (fun _ => false)
      (.keyError "contractAddress") (by decide)).1

/-- C8: the send loop attempts every chat id in order regardless of which
sends fail, and the outcome counts reflect the failure pattern. -/
theorem c8_broadcast_isolation (chat_ids : List Int) (sf : Int → Bool) (s1 s2 s3 : Int)
    (h1 : sf s1 = false) (h2 : sf s2 = true) (h3 : sf s3 = false) :
    (send_loop chat_ids sf).map Prod.fst = chat_ids
    ∧ send_loop [s1, s2, s3] sf = [(s1, true), (s2, false), (s3, true)]
    ∧ report_success (send_loop [s1, s2, s3] sf) = 2
    ∧ report_failure (send_loop [s1, s2, s3] sf) = 1 := by
  refine ⟨?_, ?_, ?_, ?_⟩ <;>
    simp [send_loop, report_success, report_failure, h1, h2, h3, List.map_map,
      Function.comp_def]

theorem c8_witness :
    report_success (send_loop [1, 2, 3] fun c => c == 2) = 2
    ∧ report_failure (send_loop [1, 2, 3] fun c => c == 2) = 1 :=
  ⟨(c8_broadcast_isolation [1, 2, 3] (fun c => c == 2) 1 2 3 (by decide) (by decide)
      (by decide)).2.2.1,
   (c8_broadcast_isolation [1, 2, 3] (fun c => c == 2) 1 2 3 (by decide) (by decide)
      (by decide)).2.2.2⟩

theorem save_chat_id_foldl (xs : List Int) (acc : List Int)
    (hd : ∀ a ∈ acc, a ∉ xs) (hx : xs.Nodup) :
    xs.foldl (fun f c => save_chat_id c f) (some acc) = some (acc ++ xs) := by
  induction xs generalizing acc with
  | nil => simp
  | cons y ys ih =>
    obtain ⟨hy_ys, hys⟩ := List.nodup_cons.mp hx
    have hy_acc : y ∉ acc := fun hmem => hd y hmem (List.mem_cons_self y ys)
    have hstep : save_chat_id y (some acc) = some (acc ++ [y]) := by
      simp [save_chat_id, load_all_chat_ids, hy_acc]
    have hdist : ∀ a ∈ acc ++ [y], a ∉ ys := by
      intro a ha
      rcases List.mem_append.mp ha with h | h
      · exact fun hin => hd a h (List.mem_cons_of_mem y hin)
      · simp only [List.mem_singleton] at h
        subst h
        exact hy_ys
    rw [List.foldl_cons, hstep, ih (acc ++ [y]) hdist hys, List.append_assoc]
    rfl

/-- C9: the chat-id store has set semantics: a duplicate add is a no-op,
distinct adds accumulate exactly, and loading with no file yields []. -/
theorem c9_set_semantics (xs : List Int) (x : Int) (st : Option (List Int))
    (h : xs.Nodup) :
    save_chat_id x (save_chat_id x st) = save_chat_id x st
    ∧ load_all_chat_ids (xs.foldl (fun f c => save_chat_id c f) Option.none) = xs
    ∧ load_all_chat_ids Option.none = [] := by
  refine ⟨?_, ?_, rfl⟩
  · by_cases hx : x ∈ load_all_chat_ids st
    · simp [save_chat_id, hx]
    · have h1 : save_chat_id x st = some (load_all_chat_ids st ++ [x]) := by
        simp [save_chat_id, hx]
      rw [h1]
      simp [save_chat_id, load_all_chat_ids]
  · cases xs with
    | nil => rfl
    | cons y ys =>
      obtain ⟨hy_ys, hys⟩ := List.nodup_cons.mp h
      have hstep : save_chat_id y Option.none = some [y] := by
        simp [save_chat_id, load_all_chat_ids]
      have hdist : ∀ a ∈ [y], a ∉ ys := by
        intro a ha
        simp only [List.mem_singleton] at ha
        subst ha
        exact hy_ys
      rw [List.foldl_cons, hstep, save_chat_id_foldl ys [y] hdist hys]
      rfl

theorem c9_witness :
    save_chat_id 7 (save_chat_id 7 Option.none) = save_chat_id 7 Option.none
    ∧ load_all_chat_ids ([1, 2].foldl (fun f c => save_chat_id c f) Option.none) = [1, 2]
    ∧ load_all_chat_ids Option.none = [] :=
  c9_set_semantics [1, 2] 7 Option.none (by decide)

theorem rawIdSet_error_of_missing (ts : List RawToken) (t : RawToken)
    (hmem : t ∈ ts) (ht : t.tokenId = Option.none) :
    rawIdSet ts = .error (.keyError "tokenId") := by
  induction ts with
  | nil => cases hmem
  | cons u us ih =>
    rcases List.mem_cons.mp hmem with h | h
    · subst h
      simp [rawIdSet, ht]
    · cases hu : u.tokenId with
      | none => simp [rawIdSet, hu]
      | some v => simp [rawIdSet, hu, ih h, bind, Except.bind]

/-- C10 (amended): nothing is dropped before diffing: the fetch returns
the raw list unfiltered, a record without the id key makes the changed
computation raise KeyError, and only the new-entries computation is
restricted to non-empty ids — every entry it returns has one. -/
theorem c10_no_drop_before_diff (success : Option PyVal) (d A B C : List RawToken)
    (t : RawToken) (prev? : Option (List RawToken))
    (hs : pyTruthy (success.getD .pynone) = true)
    (hmem : t ∈ A) (ht : t.tokenId = Option.none) :
    fetch_list (.envelope success (some d)) = .ok (some d)
    ∧ compareLists A B = .error (.keyError "tokenId")
    ∧ ∀ ti ∈ findNewToken prev? C, ti.tokenId ≠ "" := by
  refine ⟨by simp [fetch_list, hs], ?_, ?_⟩
  · simp [compareLists, rawIdSet_error_of_missing A t hmem ht, bind, Except.bind]
  · intro ti hti
    cases prev? with
    | none => cases hti
    | some prev =>
      rw [findNewToken_some] at hti
      by_cases hp : prev.isEmpty = true
      · rw [if_pos hp] at hti
        cases hti
      · rw [if_neg hp] at hti
        obtain ⟨u, hu, hmap⟩ := List.mem_map.mp hti
        have hfil := List.mem_filter.mp hu
        have hcond := of_decide_eq_true hfil.2
        rw [← hmap, to_token_info_tokenId]
        exact hcond.1

theorem c10_counterexample :
    fetch_list (.envelope (some (.bool true)) (some [rawEmptyId])) = .ok (some [rawEmptyId])
    ∧ compareLists [rawEmptyId] [] = .ok true
    ∧ compareLists [rawNoId] [] = .error (.keyError "tokenId") :=
  ⟨by decide, by decide, by decide⟩

theorem c10_witness :
    fetch_list (.envelope (some (.bool true)) (some [rawB])) = .ok (some [rawB])
    ∧ compareLists [rawNoId] [] = .error (.keyError "tokenId")
    ∧ ∀ ti ∈ findNewToken (some [rawA]) [rawEmptyId, rawB], ti.tokenId ≠ "" :=
  c10_no_drop_before_diff (some (.bool true)) [rawB] [rawNoId] [] [rawEmptyId, rawB]
    rawNoId (some [rawA]) rfl (by decide) rfl
